import Mathlib

/-!
# ginauth: Bearer and Basic authentication filters

A shallow embedding of `ginauth/ginauth.go` and of the library primitives it calls
(`strings.Split`, `http.Header.Get`, `(*http.Request).BasicAuth`, and the `gin.Context`
methods `Header`, `AbortWithError` and `Set`).

Go strings are byte sequences.  A Lean `String` stands for the Go string whose bytes are
its characters; every literal of the source is ASCII, and the separators the code looks
for (space, colon) are single bytes.
-/

set_option autoImplicit false

namespace ginauth

/-! ## `strings` -/

namespace strings

/-- Go `strings.Count(s, sep)` for a one-byte separator. -/
def Count : List Char → Char → Nat
  | [], _ => 0
  | c :: cs, sep => if c = sep then Count cs sep + 1 else Count cs sep

/-- Go `strings.Index(s, sep)` for a one-byte separator; `none` is Go's `-1`. -/
def Index : List Char → Char → Option Nat
  | [], _ => none
  | c :: cs, sep =>
    if c = sep then some 0
    else
      match Index cs sep with
      | none => none
      | some m => some (m + 1)

/-- The loop of `strings.genSplit`: `for i < n { m := Index(s, sep); if m < 0 { break };
a[i] = s[:m]; s = s[m+len(sep):]; i++ }; a[i] = s`.  The first argument is `n - i`. -/
def genSplitLoop (sep : Char) : Nat → List Char → List (List Char)
  | 0, s => [s]
  | k + 1, s =>
    match Index s sep with
    | none => [s]
    | some m => s.take m :: genSplitLoop sep k (s.drop (m + 1))

/-- Go `strings.genSplit(s, sep, 0, -1)` for a one-byte separator. -/
def genSplit (s : List Char) (sep : Char) : List (List Char) :=
  let n := Count s sep + 1
  let n := if n > s.length + 1 then s.length + 1 else n
  genSplitLoop sep (n - 1) s

/-- Go `strings.Split(s, sep)` for a one-byte separator. -/
def Split (s : String) (sep : Char) : List String :=
  (genSplit s.data sep).map String.mk

/-- Go `strings.Cut(s, sep)` for a one-byte separator: the text before and after the first
`sep`, or `none` where Go returns `found = false`. -/
def Cut (s : String) (sep : Char) : Option (String × String) :=
  match Index s.data sep with
  | none => none
  | some i => some (String.mk (s.data.take i), String.mk (s.data.drop (i + 1)))

end strings

/-! ## `net/textproto` and `net/http` headers -/

namespace http

/-- Go `textproto.validHeaderFieldByte`: the token characters of RFC 7230. -/
def validHeaderFieldByte (c : Char) : Bool :=
  let n := c.toNat
  (48 ≤ n && n ≤ 57) || (65 ≤ n && n ≤ 90) || (97 ≤ n && n ≤ 122) ||
    [33, 35, 36, 37, 38, 39, 42, 43, 45, 46, 94, 95, 96, 124, 126].contains n

/-- The rewriting loop of `textproto.canonicalMIMEHeaderKey`: upper-case the first letter
and every letter after a hyphen, lower-case the others. -/
def canonicalLoop : Bool → List Char → List Char
  | _, [] => []
  | upper, c :: cs =>
    let c1 :=
      if upper && ('a' ≤ c && c ≤ 'z') then Char.ofNat (c.toNat - 32)
      else if !upper && ('A' ≤ c && c ≤ 'Z') then Char.ofNat (c.toNat + 32)
      else c
    c1 :: canonicalLoop (c1 == '-') cs

/-- Go `textproto.CanonicalMIMEHeaderKey`: a key with a byte that is not a token character
is returned unchanged, any other key is put in canonical form. -/
def CanonicalMIMEHeaderKey (s : String) : String :=
  if s.data.all validHeaderFieldByte then String.mk (canonicalLoop true s.data) else s

/-- Go `http.Header`, a `map[string][]string`: a key that is absent maps to the nil slice. -/
abbrev Header := String → List String

namespace Header

/-- Go `Header.Get(key)`: the first value under the canonical key, `""` when there is none. -/
def Get (h : Header) (key : String) : String :=
  match h (CanonicalMIMEHeaderKey key) with
  | [] => ""
  | v :: _ => v

/-- Go `Header.Set(key, value)`: `h[CanonicalMIMEHeaderKey(key)] = []string{value}`. -/
def Set (h : Header) (key value : String) : Header :=
  fun k => if k = CanonicalMIMEHeaderKey key then [value] else h k

/-- Go `Header.Del(key)`: `delete(h, CanonicalMIMEHeaderKey(key))`. -/
def Del (h : Header) (key : String) : Header :=
  fun k => if k = CanonicalMIMEHeaderKey key then [] else h k

end Header

/-- Go `http.StatusUnauthorized`. -/
def StatusUnauthorized : Nat := 401

end http

/-! ## `encoding/base64` -/

namespace base64

/-- The decode map of `base64.StdEncoding`; `none` is Go's `0xff`. -/
def decodeMap (c : Char) : Option Nat :=
  let n := c.toNat
  if 65 ≤ n ∧ n ≤ 90 then some (n - 65)
  else if 97 ≤ n ∧ n ≤ 122 then some (n - 97 + 26)
  else if 48 ≤ n ∧ n ≤ 57 then some (n - 48 + 52)
  else if c = '+' then some 62
  else if c = '/' then some 63
  else none

/-- The `for si < len(src) && (src[si] == '\n' || src[si] == '\r') { si++ }` loops. -/
def skipNewlines : List Char → List Char
  | [] => []
  | c :: cs => if c = '\n' ∨ c = '\r' then skipNewlines cs else c :: cs

/-- The tail of `decodeQuantum`: the bytes of a quantum of `dlen` sextets
(`val := dbuf[0]<<18 | dbuf[1]<<12 | dbuf[2]<<6 | dbuf[3]`; `dlen - 1` bytes are kept;
`StdEncoding` is not strict, so the unused low bits are not checked). -/
def quantumBytes (dbuf : List Nat) : List Char :=
  let val := dbuf.getD 0 0 * 262144 + dbuf.getD 1 0 * 4096 + dbuf.getD 2 0 * 64 + dbuf.getD 3 0
  ([val / 65536 % 256, val / 256 % 256, val % 256].take (dbuf.length - 1)).map Char.ofNat

/-- The loop of `Encoding.Decode` over `decodeQuantum`, on the input that is left.  `dbuf`
holds the sextets of the current quantum (`j = dbuf.length`), `dst` the bytes decoded so
far; `none` is a `CorruptInputError`. -/
def decodeLoop : List Char → List Nat → List Char → Option (List Char)
  | [], dbuf, dst =>
    -- `len(src) == si`: fine between quanta, corrupt inside one (padding is required)
    if dbuf = [] then some dst else none
  | c :: rest, dbuf, dst =>
    match decodeMap c with
    | some out =>
      if dbuf.length = 3 then decodeLoop rest [] (dst ++ quantumBytes (dbuf ++ [out]))
      else decodeLoop rest (dbuf ++ [out]) dst
    | none =>
      if c = '\n' ∨ c = '\r' then decodeLoop rest dbuf dst
      else if c ≠ '=' then none
      else if dbuf.length < 2 then none
      else if dbuf.length = 2 then
        -- "==" is expected, the first "=" is already consumed
        match skipNewlines rest with
        | [] => none
        | c2 :: rest2 =>
          if c2 ≠ '=' then none
          else if skipNewlines rest2 ≠ [] then none
          else some (dst ++ quantumBytes dbuf)
      else
        if skipNewlines rest ≠ [] then none
        else some (dst ++ quantumBytes dbuf)

/-- Go `base64.StdEncoding.DecodeString(s)`; `none` when Go returns an error. -/
def DecodeString (s : String) : Option String :=
  (decodeLoop s.data [] []).map String.mk

end base64

namespace http

/-- Go `ascii.EqualFold`'s `lower`. -/
def lower (c : Char) : Char :=
  if 'A' ≤ c ∧ c ≤ 'Z' then Char.ofNat (c.toNat + 32) else c

/-- Go `ascii.EqualFold(s, t)`. -/
def EqualFold (s t : List Char) : Bool :=
  s.length = t.length ∧ s.map lower = t.map lower

/-- Go `http.parseBasicAuth(auth)`; `none` where Go returns `ok = false`. -/
def parseBasicAuth (auth : String) : Option (String × String) :=
  let pre := "Basic "
  if auth.data.length < pre.data.length ∨
      !EqualFold (auth.data.take pre.data.length) pre.data then none
  else
    match base64.DecodeString (String.mk (auth.data.drop pre.data.length)) with
    | none => none
    | some cs => strings.Cut cs ':'

/-- Go `http.Request`: the filters read only its header collection. -/
structure Request where
  Header : Header

/-- Go `(*http.Request).BasicAuth()`; `none` where Go returns `ok = false`. -/
def Request.BasicAuth (r : Request) : Option (String × String) :=
  let auth := r.Header.Get "Authorization"
  if auth = "" then none else parseBasicAuth auth

end http

/-! ## Go errors and the `gin.Context` -/

/-- A Go `error` value: one made by `errors.New`, identified by its text, or any other
error value `e : ε` that a verifier of the caller produces. -/
inductive Error (ε : Type) where
  | New (text : String) : Error ε
  | other (e : ε) : Error ε
  deriving DecidableEq, Repr

/-- The calls a filter makes on its collaborators, in the order it makes them. -/
inductive Call (ι ε : Type) where
  /-- Go `c.Header(key, value)` -/
  | Header (key value : String) : Call ι ε
  /-- Go `c.AbortWithError(code, err)` -/
  | AbortWithError (code : Nat) (err : Error ε) : Call ι ε
  /-- Go `c.Set(key, value)` -/
  | Set (key : String) (value : ι) : Call ι ε
  /-- Go `parser.ParseAndVerify(args...)` -/
  | ParseAndVerify (args : List String) : Call ι ε
  deriving DecidableEq, Repr

namespace Call

variable {ι ε : Type}

/-- Is the call a response-header write? -/
def isHeader : Call ι ε → Bool
  | .Header _ _ => true
  | _ => false

/-- Is the call an abort? -/
def isAbort : Call ι ε → Bool
  | .AbortWithError _ _ => true
  | _ => false

/-- Is the call a context write? -/
def isSet : Call ι ε → Bool
  | .Set _ _ => true
  | _ => false

/-- Is the call a call of the verifier? -/
def isVerify : Call ι ε → Bool
  | .ParseAndVerify _ => true
  | _ => false

end Call

/-- The part of `gin.Context` the filters touch: the request, the response header
collection and status of `c.Writer`, whether the response is already written
(`c.Writer.Written()`), whether the chain was aborted, the errors attached to the context
(`c.Errors`), the key-value store `c.Keys`, and a log of the calls made. -/
structure Context (ι ε : Type) where
  Request : http.Request
  header : http.Header
  status : Nat
  written : Bool
  aborted : Bool
  Errors : List (Error ε)
  Keys : String → Option ι
  calls : List (Call ι ε)

namespace Context

variable {ι ε : Type}

/-- Go `c.Header(key, value)`: `if value == "" { c.Writer.Header().Del(key); return };
c.Writer.Header().Set(key, value)`. -/
def Header (c : Context ι ε) (key value : String) : Context ι ε :=
  { c with
    header := if value = "" then c.header.Del key else c.header.Set key value
    calls := c.calls ++ [Call.Header key value] }

/-- Go `c.Status(code)`, that is `responseWriter.WriteHeader(code)`:
`if code > 0 && w.status != code { if w.Written() { return }; w.status = code }`.  Once
the response is written the status stays as it is. -/
def Status (c : Context ι ε) (code : Nat) : Context ι ε :=
  if code > 0 ∧ c.status ≠ code then
    if c.written then c else { c with status := code }
  else c

/-- Go `c.Writer.WriteHeaderNow()`: `if !w.Written() { w.size = 0; ... }`, after which the
response is written. -/
def WriteHeaderNow (c : Context ι ε) : Context ι ε :=
  if !c.written then { c with written := true } else c

/-- Go `c.Abort()`: the remaining handlers of the chain are not run. -/
def Abort (c : Context ι ε) : Context ι ε :=
  { c with aborted := true }

/-- Go `c.AbortWithStatus(code)`: `c.Status(code); c.Writer.WriteHeaderNow(); c.Abort()`. -/
def AbortWithStatus (c : Context ι ε) (code : Nat) : Context ι ε :=
  ((c.Status code).WriteHeaderNow).Abort

/-- Go `c.Error(err)`: `c.Errors = append(c.Errors, err)`. -/
def Error (c : Context ι ε) (err : ginauth.Error ε) : Context ι ε :=
  { c with Errors := c.Errors ++ [err] }

/-- Go `c.AbortWithError(code, err)`: `c.AbortWithStatus(code); return c.Error(err)`. -/
def AbortWithError (c : Context ι ε) (code : Nat) (err : ginauth.Error ε) : Context ι ε :=
  let c := c.AbortWithStatus code
  let c := c.Error err
  { c with calls := c.calls ++ [Call.AbortWithError code err] }

/-- Go `c.Set(key, value)`: `c.Keys[key] = value`. -/
def Set (c : Context ι ε) (key : String) (value : ι) : Context ι ε :=
  { c with
    Keys := fun k => if k = key then some value else c.Keys k
    calls := c.calls ++ [Call.Set key value] }

/-- Log a call of the verifier (made just before the model evaluates it). -/
def invoke (c : Context ι ε) (args : List String) : Context ι ε :=
  { c with calls := c.calls ++ [Call.ParseAndVerify args] }

end Context

/-! ## `ginauth.go` -/

/-- Go `const BasicToken`. -/
def BasicToken : String := "BasicToken"

/-- Go `const BearerToken`. -/
def BearerToken : String := "BearerToken"

/-- Go `type BearerParser interface`: `Realm()` and `ParseAndVerify(bearerToken)`, the latter
returning an identity value or a non-nil error. -/
structure BearerParser (ι ε : Type) where
  Realm : String
  ParseAndVerify : String → Except (Error ε) ι

/-- Go `func getBearerToken(header http.Header) (string, error)`. -/
def getBearerToken {ε : Type} (header : http.Header) : Except (Error ε) String :=
  let authorization := header.Get "Authorization"
  let parts := strings.Split authorization ' '
  if parts.length ≠ 2 then
    .error (Error.New ("invalid bearer format [" ++ authorization ++ "]"))
  else
    .ok (parts.getD 1 "")

/-- Go `func BearerHandler(parser BearerParser) gin.HandlerFunc`: the returned filter, as a
function of the context it is run on. -/
def BearerHandler {ι ε : Type} (parser : BearerParser ι ε) (c : Context ι ε) : Context ι ε :=
  let autherr := "Bearer realm=" ++ parser.Realm
  match getBearerToken c.Request.Header with
  | .error err =>
    let c := c.Header "WWW-Authenticate" autherr
    c.AbortWithError http.StatusUnauthorized err
  | .ok bearerToken =>
    let c := c.invoke [bearerToken]
    match parser.ParseAndVerify bearerToken with
    | .error err =>
      let c := c.Header "WWW-Authenticate" autherr
      c.AbortWithError http.StatusUnauthorized err
    | .ok token =>
      c.Set BearerToken token

/-- Go `type BasicParser interface`: `Realm()` and `ParseAndVerify(user, password)`. -/
structure BasicParser (ι ε : Type) where
  Realm : String
  ParseAndVerify : String → String → Except (Error ε) ι

/-- Go `var errMissingAuth`. -/
def errMissingAuth {ε : Type} : Error ε := Error.New "basic auth missing or wrong format"

/-- Go `func BasicHandler(parser BasicParser) gin.HandlerFunc`: the returned filter, as a
function of the context it is run on. -/
def BasicHandler {ι ε : Type} (parser : BasicParser ι ε) (c : Context ι ε) : Context ι ε :=
  let autherr := "Basic realm=" ++ parser.Realm
  match c.Request.BasicAuth with
  | none =>
    let c := c.Header "WWW-Authenticate" autherr
    c.AbortWithError http.StatusUnauthorized errMissingAuth
  | some (user, pass) =>
    let c := c.invoke [user, pass]
    match parser.ParseAndVerify user pass with
    | .error err =>
      let c := c.Header "WWW-Authenticate" autherr
      c.AbortWithError http.StatusUnauthorized err
    | .ok token =>
      c.Set BasicToken token

/-- The calls a filter made when it took the context `c` to the context `c1`: the part of
the log of `c1` after the calls already logged in `c`. -/
def issued {ι ε : Type} (c c1 : Context ι ε) : List (Call ι ε) :=
  c1.calls.drop c.calls.length

/-- The context after a rejection: the challenge header is set, then the request is
aborted with code 401 and the cause `err`; the status becomes 401 unless the response
was written before. -/
def rejected {ι ε : Type} (c : Context ι ε) (challenge : String) (err : Error ε) : Context ι ε :=
  { c with
    header := c.header.Set "WWW-Authenticate" challenge
    status := if c.written then c.status else 401
    written := true
    aborted := true
    Errors := c.Errors ++ [err]
    calls := c.calls ++ [Call.Header "WWW-Authenticate" challenge, Call.AbortWithError 401 err] }

/-! ## Sample requests and verifiers -/

/-- A request header collection that holds only the Authorization value `a`. -/
def authorizationOnly (a : String) : http.Header :=
  fun k => if k = "Authorization" then [a] else []

/-- The context gin hands to the first filter of a chain, for the given request headers. -/
def freshContext (h : http.Header) : Context String String :=
  { Request := { Header := h }
    header := fun _ => []
    status := 200
    written := false
    aborted := false
    Errors := []
    Keys := fun _ => none
    calls := [] }

/-- The context a filter receives when an earlier handler of the chain has already
written a response with status 200 and the chain goes on. -/
def writtenContext (h : http.Header) : Context String String :=
  { freshContext h with written := true }

/-- A Bearer verifier of realm `svc` that answers every token with `result`. -/
def svcBearer (result : Except (Error String) String) : BearerParser String String :=
  { Realm := "svc", ParseAndVerify := fun _ => result }

/-- A Basic verifier of realm `svc` that answers every user and password with `result`. -/
def svcBasic (result : Except (Error String) String) : BasicParser String String :=
  { Realm := "svc", ParseAndVerify := fun _ _ => result }

/-! ## Lemmas on `strings.Split` -/

namespace strings

theorem Count_eq_count (s : List Char) (sep : Char) : Count s sep = s.count sep := by
  induction s with
  | nil => rfl
  | cons c cs ih =>
    by_cases h : c = sep
    · subst h; simp [Count, ih]
    · have h1 : (c == sep) = false := by simpa using h
      simp [Count, ih, h, List.count_cons, h1]

theorem Count_le_length (s : List Char) (sep : Char) : Count s sep ≤ s.length := by
  rw [Count_eq_count]; exact List.count_le_length sep s

theorem Index_eq_none_of_not_mem (s : List Char) (sep : Char) (h : sep ∉ s) :
    Index s sep = none := by
  induction s with
  | nil => rfl
  | cons c cs ih =>
    have hc : c ≠ sep := fun e => h (by simp [e])
    have hcs : sep ∉ cs := fun e => h (by simp [e])
    simp [Index, hc, ih hcs]

theorem Index_append_sep (s t : List Char) (sep : Char) (h : sep ∉ s) :
    Index (s ++ sep :: t) sep = some s.length := by
  induction s with
  | nil => simp [Index]
  | cons c cs ih =>
    have hc : c ≠ sep := fun e => h (by simp [e])
    have hcs : sep ∉ cs := fun e => h (by simp [e])
    simp [Index, hc, ih hcs]

theorem Index_none_Count (s : List Char) (sep : Char) (h : Index s sep = none) :
    Count s sep = 0 := by
  induction s with
  | nil => rfl
  | cons c cs ih =>
    by_cases hc : c = sep
    · simp [Index, hc] at h
    · cases hi : Index cs sep with
      | none => simp [Count, hc, ih hi]
      | some m => simp [Index, hc, hi] at h

theorem Index_some_Count (s : List Char) (sep : Char) (m : Nat) (h : Index s sep = some m) :
    Count s sep = Count (s.drop (m + 1)) sep + 1 := by
  induction s generalizing m with
  | nil => simp [Index] at h
  | cons c cs ih =>
    by_cases hc : c = sep
    · simp [Index, hc] at h
      subst h
      simp [Count, hc]
    · cases hi : Index cs sep with
      | none => simp [Index, hc, hi] at h
      | some k =>
        simp [Index, hc, hi] at h
        subst h
        simp [Count, hc, ih k hi]

theorem genSplitLoop_length (sep : Char) (k : Nat) (s : List Char) (h : Count s sep ≤ k) :
    (genSplitLoop sep k s).length = Count s sep + 1 := by
  induction k generalizing s with
  | zero =>
    have h0 : Count s sep = 0 := Nat.le_zero.mp h
    simp [genSplitLoop, h0]
  | succ k ih =>
    cases hi : Index s sep with
    | none => simp [genSplitLoop, hi, Index_none_Count s sep hi]
    | some m =>
      have hc := Index_some_Count s sep m hi
      have hk : Count (s.drop (m + 1)) sep ≤ k := by omega
      simp [genSplitLoop, hi, ih _ hk, hc]

theorem genSplit_length (s : List Char) (sep : Char) :
    (genSplit s sep).length = s.count sep + 1 := by
  have hle := Count_le_length s sep
  have hn : ¬ (Count s sep + 1 > s.length + 1) := by omega
  simp only [genSplit, hn, if_false, Nat.add_sub_cancel]
  rw [genSplitLoop_length sep _ s (Nat.le_refl _), Count_eq_count]

/-- The function `Split` returns one part more than there are separators in the string. -/
theorem Split_length (s : String) (sep : Char) :
    (Split s sep).length = s.data.count sep + 1 := by
  simp [Split, genSplit_length]

theorem genSplit_two (s t : List Char) (sep : Char) (hs : sep ∉ s) (ht : sep ∉ t) :
    genSplit (s ++ sep :: t) sep = [s, t] := by
  have hc : Count (s ++ sep :: t) sep = 1 := by
    rw [Count_eq_count]
    simp [List.count_eq_zero_of_not_mem hs, List.count_eq_zero_of_not_mem ht]
  have hn : ¬ (1 + 1 > (s ++ sep :: t).length + 1) := by
    simp only [List.length_append, List.length_cons]; omega
  simp only [genSplit, hc, hn, if_false, Nat.add_sub_cancel]
  simp [genSplitLoop, Index_append_sep s t sep hs]

/-- Splitting `s ++ sep ++ t`, where neither part holds the separator, gives `[s, t]`. -/
theorem Split_two (s t : String) (sep : Char) (hs : sep ∉ s.data) (ht : sep ∉ t.data) :
    Split (s ++ String.singleton sep ++ t) sep = [s, t] := by
  have hd : (s ++ String.singleton sep ++ t).data = s.data ++ sep :: t.data := by
    simp [String.data_append, String.singleton]
  simp [Split, hd, genSplit_two s.data t.data sep hs ht]

end strings

/-! ## Lemmas on headers and on the two filters -/

namespace http

theorem Header.Get_Set (h : Header) (key value : String) : (h.Set key value).Get key = value := by
  simp [Header.Get, Header.Set]

theorem canonical_Authorization : CanonicalMIMEHeaderKey "Authorization" = "Authorization" := by
  decide

theorem Header.Get_of_absent (h : Header) (habs : h "Authorization" = []) :
    h.Get "Authorization" = "" := by
  simp [Header.Get, canonical_Authorization, habs]

end http

theorem challenge_ne_empty (scheme realm : String) (h : 0 < scheme.length) :
    scheme ++ realm ≠ "" := by
  intro e
  have hl := congrArg String.length e
  rw [String.length_append] at hl
  have h0 : "".length = 0 := rfl
  omega

theorem bearer_challenge_ne_empty (realm : String) : "Bearer realm=" ++ realm ≠ "" :=
  challenge_ne_empty _ _ (by decide)

theorem basic_challenge_ne_empty (realm : String) : "Basic realm=" ++ realm ≠ "" :=
  challenge_ne_empty _ _ (by decide)

section filters

variable {ι ε : Type}

/-- What `c.AbortWithError(http.StatusUnauthorized, err)` does to the context. -/
theorem AbortWithError_unauthorized (c : Context ι ε) (err : Error ε) :
    c.AbortWithError http.StatusUnauthorized err =
      { c with
        status := if c.written then c.status else 401
        written := true
        aborted := true
        Errors := c.Errors ++ [err]
        calls := c.calls ++ [Call.AbortWithError 401 err] } := by
  obtain ⟨req, hd, st, wr, ab, errs, keys, calls⟩ := c
  cases wr <;> by_cases hst : st = 401 <;>
    simp [Context.AbortWithError, Context.AbortWithStatus, Context.Status,
      Context.WriteHeaderNow, Context.Abort, Context.Error, http.StatusUnauthorized, hst]

theorem BearerHandler_extract_error (parser : BearerParser ι ε) (c : Context ι ε)
    (err : Error ε) (h : getBearerToken c.Request.Header = .error err) :
    BearerHandler parser c = rejected c ("Bearer realm=" ++ parser.Realm) err := by
  simp [BearerHandler, h, rejected, Context.Header, AbortWithError_unauthorized,
    bearer_challenge_ne_empty]

theorem BearerHandler_verify_error (parser : BearerParser ι ε) (c : Context ι ε)
    (tok : String) (err : Error ε) (h : (getBearerToken c.Request.Header : Except (Error ε) String) = .ok tok)
    (hv : parser.ParseAndVerify tok = .error err) :
    BearerHandler parser c =
      rejected (c.invoke [tok]) ("Bearer realm=" ++ parser.Realm) err := by
  simp [BearerHandler, h, hv, rejected, Context.Header, AbortWithError_unauthorized,
    bearer_challenge_ne_empty]

theorem BearerHandler_verify_ok (parser : BearerParser ι ε) (c : Context ι ε)
    (tok : String) (v : ι) (h : (getBearerToken c.Request.Header : Except (Error ε) String) = .ok tok)
    (hv : parser.ParseAndVerify tok = .ok v) :
    BearerHandler parser c = (c.invoke [tok]).Set BearerToken v := by
  simp [BearerHandler, h, hv]

theorem BasicHandler_extract_error (parser : BasicParser ι ε) (c : Context ι ε)
    (h : c.Request.BasicAuth = none) :
    BasicHandler parser c = rejected c ("Basic realm=" ++ parser.Realm) errMissingAuth := by
  simp [BasicHandler, h, rejected, Context.Header, AbortWithError_unauthorized,
    basic_challenge_ne_empty]

theorem BasicHandler_verify_error (parser : BasicParser ι ε) (c : Context ι ε)
    (user pass : String) (err : Error ε) (h : c.Request.BasicAuth = some (user, pass))
    (hv : parser.ParseAndVerify user pass = .error err) :
    BasicHandler parser c =
      rejected (c.invoke [user, pass]) ("Basic realm=" ++ parser.Realm) err := by
  simp [BasicHandler, h, hv, rejected, Context.Header, AbortWithError_unauthorized,
    basic_challenge_ne_empty]

theorem BasicHandler_verify_ok (parser : BasicParser ι ε) (c : Context ι ε)
    (user pass : String) (v : ι) (h : c.Request.BasicAuth = some (user, pass))
    (hv : parser.ParseAndVerify user pass = .ok v) :
    BasicHandler parser c = (c.invoke [user, pass]).Set BasicToken v := by
  simp [BasicHandler, h, hv]

theorem issued_rejected (c : Context ι ε) (challenge : String) (err : Error ε) :
    issued c (rejected c challenge err) =
      [Call.Header "WWW-Authenticate" challenge, Call.AbortWithError 401 err] := by
  simp [issued, rejected]

theorem issued_invoke_rejected (c : Context ι ε) (args : List String) (challenge : String)
    (err : Error ε) :
    issued c (rejected (c.invoke args) challenge err) =
      [Call.ParseAndVerify args, Call.Header "WWW-Authenticate" challenge,
        Call.AbortWithError 401 err] := by
  simp [issued, rejected, Context.invoke]

theorem issued_invoke_Set (c : Context ι ε) (args : List String) (key : String) (v : ι) :
    issued c ((c.invoke args).Set key v) = [Call.ParseAndVerify args, Call.Set key v] := by
  simp [issued, Context.Set, Context.invoke]

/-- What `getBearerToken` returns, by the number of parts of the split. -/
theorem getBearerToken_eq (header : http.Header) :
    (getBearerToken header : Except (Error ε) String) =
      if (strings.Split (header.Get "Authorization") ' ').length ≠ 2 then
        .error (Error.New ("invalid bearer format [" ++ header.Get "Authorization" ++ "]"))
      else .ok ((strings.Split (header.Get "Authorization") ' ').getD 1 "") := by
  simp [getBearerToken]

/-- When the split gives the two parts `[s, t]`, `getBearerToken` returns `t`. -/
theorem getBearerToken_of_parts (header : http.Header) (s t : String)
    (h : strings.Split (header.Get "Authorization") ' ' = [s, t]) :
    (getBearerToken header : Except (Error ε) String) = .ok t := by
  rw [getBearerToken_eq, h]
  simp

end filters

/-! ## Extraction of the Bearer token -/

/-- C1: when the Authorization value is `s ++ " " ++ t` and neither `s` nor `t` holds a
space, `getBearerToken` returns exactly `t` without error, whatever the scheme `s` is. -/
theorem getBearerToken_two_parts {ε : Type} (header : http.Header) (s t : String)
    (hs : ' ' ∉ s.data) (ht : ' ' ∉ t.data)
    (hh : header.Get "Authorization" = s ++ " " ++ t) :
    (getBearerToken header : Except (Error ε) String) = .ok t := by
  apply getBearerToken_of_parts header s t
  rw [hh]
  exact strings.Split_two s t ' ' hs ht

/-- Witness for C1: `Bearer abc123` and `Foo abc123` both give the token `abc123`. -/
theorem getBearerToken_two_parts_witness :
    ((getBearerToken (authorizationOnly "Bearer abc123") : Except (Error String) String)
        = .ok "abc123") ∧
    ((getBearerToken (authorizationOnly "Foo abc123") : Except (Error String) String)
        = .ok "abc123") :=
  ⟨getBearerToken_two_parts _ "Bearer" "abc123" (by decide) (by decide) (by decide),
   getBearerToken_two_parts _ "Foo" "abc123" (by decide) (by decide) (by decide)⟩

/-- C2: `getBearerToken` returns an error exactly when splitting the Authorization value
on the space does not give two parts, that is exactly when the value does not hold
exactly one space; so it fails for the empty value, for a request without the header, and
for every value of three or more parts (two or more spaces). -/
theorem getBearerToken_error_iff {ε : Type} (header : http.Header) :
    ((∃ err, (getBearerToken header : Except (Error ε) String) = .error err) ↔
        (strings.Split (header.Get "Authorization") ' ').length ≠ 2) ∧
    ((strings.Split (header.Get "Authorization") ' ').length ≠ 2 ↔
        (header.Get "Authorization").data.count ' ' ≠ 1) ∧
    (header.Get "Authorization" = "" →
        ∃ err, (getBearerToken header : Except (Error ε) String) = .error err) ∧
    (header "Authorization" = [] →
        ∃ err, (getBearerToken header : Except (Error ε) String) = .error err) ∧
    (3 ≤ (strings.Split (header.Get "Authorization") ' ').length →
        ∃ err, (getBearerToken header : Except (Error ε) String) = .error err) ∧
    (2 ≤ (header.Get "Authorization").data.count ' ' →
        ∃ err, (getBearerToken header : Except (Error ε) String) = .error err) := by
  have hlen := strings.Split_length (header.Get "Authorization") ' '
  have hiff : (∃ err, (getBearerToken header : Except (Error ε) String) = .error err) ↔
      (strings.Split (header.Get "Authorization") ' ').length ≠ 2 := by
    rw [getBearerToken_eq]
    by_cases h2 : (strings.Split (header.Get "Authorization") ' ').length = 2
    · simp [h2]
    · simp [h2]
  refine ⟨hiff, ?_, ?_, ?_, ?_, ?_⟩
  · rw [hlen]; omega
  · intro he
    apply hiff.mpr
    rw [hlen, he]
    decide
  · intro habs
    apply hiff.mpr
    rw [hlen, http.Header.Get_of_absent header habs]
    decide
  · intro h3
    apply hiff.mpr
    omega
  · intro h2
    apply hiff.mpr
    rw [hlen]
    omega

/-- Witness for C2: the empty value and the three-part value `Bearer a b` are refused, and
a request without the header is refused. -/
theorem getBearerToken_error_iff_witness :
    (∃ err, (getBearerToken (authorizationOnly "") : Except (Error String) String)
        = .error err) ∧
    (∃ err, (getBearerToken (authorizationOnly "Bearer a b") : Except (Error String) String)
        = .error err) ∧
    (∃ err, (getBearerToken (fun _ => []) : Except (Error String) String) = .error err) :=
  ⟨(getBearerToken_error_iff (authorizationOnly "")).2.2.1 (by decide),
   (getBearerToken_error_iff (authorizationOnly "Bearer a b")).2.2.2.2.1 (by decide),
   (getBearerToken_error_iff (fun _ => [])).2.2.2.1 rfl⟩

/-- C10: an Authorization value made of a scheme `s` without a space and one trailing
space passes extraction with the empty token, and the Bearer filter does not reject at
extraction: it calls the verifier with the token `""` and goes on as the verifier
answers (the identity stored under `BearerToken`, or an abort with the verifier's error
as cause); a value `" " ++ t` with an empty scheme gives the token `t`, and the filter
calls the verifier with `t`. -/
theorem getBearerToken_trailing_space {ι ε : Type} (parser : BearerParser ι ε)
    (c : Context ι ε) (s : String) (hs : ' ' ∉ s.data)
    (hh : c.Request.Header.Get "Authorization" = s ++ " ") :
    (getBearerToken c.Request.Header : Except (Error ε) String) = .ok "" ∧
    (issued c (BearerHandler parser c)).head? = some (Call.ParseAndVerify [""]) ∧
    BearerHandler parser c =
      (match parser.ParseAndVerify "" with
        | .error err =>
          ((c.invoke [""]).Header "WWW-Authenticate"
            ("Bearer realm=" ++ parser.Realm)).AbortWithError http.StatusUnauthorized err
        | .ok token => (c.invoke [""]).Set BearerToken token) ∧
    (∀ v, parser.ParseAndVerify "" = .ok v →
      (BearerHandler parser c).Keys "BearerToken" = some v ∧
      issued c (BearerHandler parser c) = [Call.ParseAndVerify [""], Call.Set BearerToken v]) ∧
    (∀ e, parser.ParseAndVerify "" = .error e →
      (BearerHandler parser c).Errors = c.Errors ++ [e] ∧
      issued c (BearerHandler parser c) =
        [Call.ParseAndVerify [""],
         Call.Header "WWW-Authenticate" ("Bearer realm=" ++ parser.Realm),
         Call.AbortWithError 401 e]) ∧
    (∀ (header : http.Header) (t : String), ' ' ∉ t.data →
      header.Get "Authorization" = " " ++ t →
      (getBearerToken header : Except (Error ε) String) = .ok t) ∧
    (∀ (c2 : Context ι ε) (t : String), ' ' ∉ t.data →
      c2.Request.Header.Get "Authorization" = " " ++ t →
      BearerHandler parser c2 =
        (match parser.ParseAndVerify t with
          | .error err =>
            ((c2.invoke [t]).Header "WWW-Authenticate"
              ("Bearer realm=" ++ parser.Realm)).AbortWithError http.StatusUnauthorized err
          | .ok token => (c2.invoke [t]).Set BearerToken token)) := by
  have hok : (getBearerToken c.Request.Header : Except (Error ε) String) = .ok "" := by
    apply getBearerToken_of_parts c.Request.Header s ""
    have hsp := strings.Split_two s "" ' ' hs (by simp)
    rw [hh]
    simpa using hsp
  have hlead : ∀ (header : http.Header) (t : String), ' ' ∉ t.data →
      header.Get "Authorization" = " " ++ t →
      (getBearerToken header : Except (Error ε) String) = .ok t := by
    intro header t ht hget
    apply getBearerToken_of_parts header "" t
    have hsp := strings.Split_two "" t ' ' (by simp) ht
    rw [hget]
    simpa using hsp
  refine ⟨hok, ?_, ?_, ?_, ?_, hlead, ?_⟩
  · cases hv : parser.ParseAndVerify "" with
    | error err =>
      rw [BearerHandler_verify_error parser c "" err hok hv, issued_invoke_rejected]
      rfl
    | ok v =>
      rw [BearerHandler_verify_ok parser c "" v hok hv, issued_invoke_Set]
      rfl
  · simp only [BearerHandler, hok]
  · intro v hv
    rw [BearerHandler_verify_ok parser c "" v hok hv, issued_invoke_Set]
    simp [Context.Set, Context.invoke, BearerToken]
  · intro e hv
    rw [BearerHandler_verify_error parser c "" e hok hv, issued_invoke_rejected]
    simp [rejected, Context.invoke]
  · intro c2 t ht hget
    simp only [BearerHandler, hlead c2.Request.Header t ht hget]

/-- Witness for C10: the value `Bearer ` with nothing after the space; the verifier is
called with the empty token and its answer `u1` is stored under `BearerToken`. -/
theorem getBearerToken_trailing_space_witness :
    ((getBearerToken (authorizationOnly "Bearer ") : Except (Error String) String) = .ok "") ∧
    (issued (freshContext (authorizationOnly "Bearer "))
        (BearerHandler (svcBearer (.ok "u1")) (freshContext (authorizationOnly "Bearer ")))).head?
      = some (Call.ParseAndVerify [""]) ∧
    (BearerHandler (svcBearer (.ok "u1")) (freshContext (authorizationOnly "Bearer "))).Keys
        "BearerToken" = some "u1" ∧
    (BearerHandler (svcBearer (.ok "u1")) (freshContext (authorizationOnly "Bearer "))).aborted
      = false :=
  have h := getBearerToken_trailing_space (svcBearer (.ok "u1"))
    (freshContext (authorizationOnly "Bearer ")) "Bearer" (by decide) (by decide)
  ⟨h.1, h.2.1, (h.2.2.2.1 "u1" rfl).1, by rw [h.2.2.1]; rfl⟩

/-! ## The challenge header -/

/-- Counterexample to C3: realm `svc`, a verifier failing with `expired`, Authorization
`Bearer abc123`; the filter rejects, and the challenge it writes is `Bearer realm=svc`,
not `Bearer realm="svc"`; the Basic filter likewise writes `Basic realm=svc`. -/
theorem challenge_quoted_counterexample :
    (BearerHandler (svcBearer (.error (Error.New "expired")))
        (freshContext (authorizationOnly "Bearer abc123"))).aborted = true ∧
    (BearerHandler (svcBearer (.error (Error.New "expired")))
        (freshContext (authorizationOnly "Bearer abc123"))).header.Get "WWW-Authenticate"
      = "Bearer realm=svc" ∧
    (BearerHandler (svcBearer (.error (Error.New "expired")))
        (freshContext (authorizationOnly "Bearer abc123"))).header.Get "WWW-Authenticate"
      ≠ "Bearer realm=\"svc\"" ∧
    (BasicHandler (svcBasic (.error (Error.New "expired")))
        (freshContext (authorizationOnly "Basic YWxpY2U6d3Jvbmc="))).header.Get "WWW-Authenticate"
      ≠ "Basic realm=\"svc\"" := by
  decide

/-- C3 (amended): whenever a filter rejects a request, because extraction fails or because
the verifier returns an error, it writes the WWW-Authenticate response header, and the
value is exactly `Bearer realm=` (Bearer filter) or `Basic realm=` (Basic filter)
followed by the realm string as the verifier gives it, with no quotes added. -/
theorem challenge_header_on_reject {ι ε : Type} :
    (∀ (parser : BearerParser ι ε) (c : Context ι ε),
      ((∃ err, (getBearerToken c.Request.Header : Except (Error ε) String) = .error err) ∨
        (∃ tok err, (getBearerToken c.Request.Header : Except (Error ε) String) = .ok tok ∧
          parser.ParseAndVerify tok = .error err)) →
      (BearerHandler parser c).header.Get "WWW-Authenticate"
          = "Bearer realm=" ++ parser.Realm ∧
        Call.Header "WWW-Authenticate" ("Bearer realm=" ++ parser.Realm)
          ∈ issued c (BearerHandler parser c)) ∧
    (∀ (parser : BasicParser ι ε) (c : Context ι ε),
      (c.Request.BasicAuth = none ∨
        (∃ user pass err, c.Request.BasicAuth = some (user, pass) ∧
          parser.ParseAndVerify user pass = .error err)) →
      (BasicHandler parser c).header.Get "WWW-Authenticate"
          = "Basic realm=" ++ parser.Realm ∧
        Call.Header "WWW-Authenticate" ("Basic realm=" ++ parser.Realm)
          ∈ issued c (BasicHandler parser c)) := by
  constructor
  · intro parser c h
    rcases h with ⟨err, he⟩ | ⟨tok, err, he, hv⟩
    · rw [BearerHandler_extract_error parser c err he, issued_rejected]
      exact ⟨http.Header.Get_Set _ _ _, by simp⟩
    · rw [BearerHandler_verify_error parser c tok err he hv, issued_invoke_rejected]
      exact ⟨http.Header.Get_Set _ _ _, by simp⟩
  · intro parser c h
    rcases h with he | ⟨user, pass, err, he, hv⟩
    · rw [BasicHandler_extract_error parser c he, issued_rejected]
      exact ⟨http.Header.Get_Set _ _ _, by simp⟩
    · rw [BasicHandler_verify_error parser c user pass err he hv, issued_invoke_rejected]
      exact ⟨http.Header.Get_Set _ _ _, by simp⟩

/-- Witness for C3 (amended): realm `svc` and a failing verifier give `Bearer realm=svc`;
a request without credentials gives `Basic realm=svc`. -/
theorem challenge_header_on_reject_witness :
    (BearerHandler (svcBearer (.error (Error.New "expired")))
        (freshContext (authorizationOnly "Bearer abc123"))).header.Get "WWW-Authenticate"
      = "Bearer realm=" ++ "svc" ∧
    (BasicHandler (svcBasic (.ok "u1")) (freshContext (fun _ => []))).header.Get
        "WWW-Authenticate"
      = "Basic realm=" ++ "svc" :=
  ⟨(challenge_header_on_reject.1 (svcBearer (.error (Error.New "expired")))
      (freshContext (authorizationOnly "Bearer abc123"))
      (Or.inr ⟨"abc123", Error.New "expired", rfl, rfl⟩)).1,
   (challenge_header_on_reject.2 (svcBasic (.ok "u1")) (freshContext (fun _ => []))
      (Or.inl (by decide))).1⟩

/-! ## Verification failure and success -/

/-- Counterexample to C4: an earlier handler has written a response with status 200; the
credentials `Bearer abc123` are extracted, the verifier fails with `expired`, the filter
aborts with code 401, and the response status stays 200, not 401. -/
theorem verification_failure_status_counterexample :
    ((getBearerToken (writtenContext (authorizationOnly "Bearer abc123")).Request.Header
        : Except (Error String) String) = .ok "abc123") ∧
    (svcBearer (.error (Error.New "expired"))).ParseAndVerify "abc123"
      = .error (Error.New "expired") ∧
    (BearerHandler (svcBearer (.error (Error.New "expired")))
        (writtenContext (authorizationOnly "Bearer abc123"))).aborted = true ∧
    (BearerHandler (svcBearer (.error (Error.New "expired")))
        (writtenContext (authorizationOnly "Bearer abc123"))).status = 200 ∧
    (BearerHandler (svcBearer (.error (Error.New "expired")))
        (writtenContext (authorizationOnly "Bearer abc123"))).status ≠ 401 :=
  ⟨rfl, rfl, by decide, by decide, by decide⟩

/-- C4 (amended): when the credentials are extracted and the verifier returns the error
`e`, the Bearer filter (and likewise the Basic filter) calls the abort with code 401 and
cause `e`: the calls made are the verifier, the challenge header and
`AbortWithError(401, e)`, the request is aborted, and `e` is the error appended to the
context.  The response status is 401 when the response was not written before the filter
ran, and is the earlier status otherwise.  The key-value store is as before, so the
filter writes no entry under `BearerToken` (respectively `BasicToken`). -/
theorem verification_failure_aborts {ι ε : Type} :
    (∀ (parser : BearerParser ι ε) (c : Context ι ε) (tok : String) (e : Error ε),
      (getBearerToken c.Request.Header : Except (Error ε) String) = .ok tok →
      parser.ParseAndVerify tok = .error e →
      (BearerHandler parser c).status = (if c.written then c.status else 401) ∧
      (BearerHandler parser c).written = true ∧
      (BearerHandler parser c).aborted = true ∧
      (BearerHandler parser c).Errors = c.Errors ++ [e] ∧
      issued c (BearerHandler parser c) =
        [Call.ParseAndVerify [tok],
         Call.Header "WWW-Authenticate" ("Bearer realm=" ++ parser.Realm),
         Call.AbortWithError 401 e] ∧
      (BearerHandler parser c).Keys = c.Keys ∧
      (BearerHandler parser c).Keys BearerToken = c.Keys BearerToken) ∧
    (∀ (parser : BasicParser ι ε) (c : Context ι ε) (user pass : String) (e : Error ε),
      c.Request.BasicAuth = some (user, pass) →
      parser.ParseAndVerify user pass = .error e →
      (BasicHandler parser c).status = (if c.written then c.status else 401) ∧
      (BasicHandler parser c).written = true ∧
      (BasicHandler parser c).aborted = true ∧
      (BasicHandler parser c).Errors = c.Errors ++ [e] ∧
      issued c (BasicHandler parser c) =
        [Call.ParseAndVerify [user, pass],
         Call.Header "WWW-Authenticate" ("Basic realm=" ++ parser.Realm),
         Call.AbortWithError 401 e] ∧
      (BasicHandler parser c).Keys = c.Keys ∧
      (BasicHandler parser c).Keys BasicToken = c.Keys BasicToken) := by
  constructor
  · intro parser c tok e he hv
    rw [BearerHandler_verify_error parser c tok e he hv, issued_invoke_rejected]
    simp [rejected, Context.invoke]
  · intro parser c user pass e he hv
    rw [BasicHandler_verify_error parser c user pass e he hv, issued_invoke_rejected]
    simp [rejected, Context.invoke]

/-- Witness for C4 (amended): realm `svc`, a verifier failing with `expired`,
Authorization `Bearer abc123` on a response not yet written, and user `alice` with
password `wrong` for the Basic filter: status 401 and the verifier's error as cause. -/
theorem verification_failure_aborts_witness :
    ((BearerHandler (svcBearer (.error (Error.New "expired")))
        (freshContext (authorizationOnly "Bearer abc123"))).status = 401 ∧
      (BearerHandler (svcBearer (.error (Error.New "expired")))
        (freshContext (authorizationOnly "Bearer abc123"))).Errors = [Error.New "expired"]) ∧
    ((BasicHandler (svcBasic (.error (Error.New "denied")))
        (freshContext (authorizationOnly "Basic YWxpY2U6d3Jvbmc="))).status = 401 ∧
      (BasicHandler (svcBasic (.error (Error.New "denied")))
        (freshContext (authorizationOnly "Basic YWxpY2U6d3Jvbmc="))).Errors
        = [Error.New "denied"]) :=
  have hb := verification_failure_aborts.1 (svcBearer (.error (Error.New "expired")))
    (freshContext (authorizationOnly "Bearer abc123")) "abc123" (Error.New "expired") rfl rfl
  have ha := verification_failure_aborts.2 (svcBasic (.error (Error.New "denied")))
    (freshContext (authorizationOnly "Basic YWxpY2U6d3Jvbmc=")) "alice" "wrong"
    (Error.New "denied") (by decide) rfl
  ⟨⟨hb.1, hb.2.2.2.1⟩, ⟨ha.1, ha.2.2.2.1⟩⟩

/-- C5: when the credentials are extracted and the verifier returns the identity `v`
without error, the context afterwards maps `BearerToken` (Basic filter: `BasicToken`) to
exactly `v`; the only calls made are the verifier and the context write, so no header is
written and the request is not aborted: response headers, status, written flag, abort
flag and errors are as before. -/
theorem verification_success_sets_token {ι ε : Type} :
    (∀ (parser : BearerParser ι ε) (c : Context ι ε) (tok : String) (v : ι),
      (getBearerToken c.Request.Header : Except (Error ε) String) = .ok tok →
      parser.ParseAndVerify tok = .ok v →
      (BearerHandler parser c).Keys "BearerToken" = some v ∧
      issued c (BearerHandler parser c) =
        [Call.ParseAndVerify [tok], Call.Set BearerToken v] ∧
      (BearerHandler parser c).header = c.header ∧
      (BearerHandler parser c).aborted = c.aborted ∧
      (BearerHandler parser c).status = c.status ∧
      (BearerHandler parser c).Errors = c.Errors ∧
      (BearerHandler parser c).written = c.written) ∧
    (∀ (parser : BasicParser ι ε) (c : Context ι ε) (user pass : String) (v : ι),
      c.Request.BasicAuth = some (user, pass) →
      parser.ParseAndVerify user pass = .ok v →
      (BasicHandler parser c).Keys "BasicToken" = some v ∧
      issued c (BasicHandler parser c) =
        [Call.ParseAndVerify [user, pass], Call.Set BasicToken v] ∧
      (BasicHandler parser c).header = c.header ∧
      (BasicHandler parser c).aborted = c.aborted ∧
      (BasicHandler parser c).status = c.status ∧
      (BasicHandler parser c).Errors = c.Errors ∧
      (BasicHandler parser c).written = c.written) := by
  constructor
  · intro parser c tok v he hv
    rw [BearerHandler_verify_ok parser c tok v he hv, issued_invoke_Set]
    simp [Context.Set, Context.invoke, BearerToken]
  · intro parser c user pass v he hv
    rw [BasicHandler_verify_ok parser c user pass v he hv, issued_invoke_Set]
    simp [Context.Set, Context.invoke, BasicToken]

/-- Witness for C5: realm `svc`, a verifier returning `u1`, Authorization `Bearer abc123`:
`BearerToken` is `u1`, no challenge header, no abort. -/
theorem verification_success_sets_token_witness :
    (BearerHandler (svcBearer (.ok "u1"))
        (freshContext (authorizationOnly "Bearer abc123"))).Keys "BearerToken" = some "u1" ∧
    (BearerHandler (svcBearer (.ok "u1"))
        (freshContext (authorizationOnly "Bearer abc123"))).header.Get "WWW-Authenticate" = "" ∧
    (BearerHandler (svcBearer (.ok "u1"))
        (freshContext (authorizationOnly "Bearer abc123"))).aborted = false ∧
    (BasicHandler (svcBasic (.ok "u1"))
        (freshContext (authorizationOnly "Basic YWxpY2U6d3Jvbmc="))).Keys "BasicToken"
      = some "u1" :=
  have hb := verification_success_sets_token.1 (svcBearer (.ok "u1"))
    (freshContext (authorizationOnly "Bearer abc123")) "abc123" "u1" rfl rfl
  have ha := verification_success_sets_token.2 (svcBasic (.ok "u1"))
    (freshContext (authorizationOnly "Basic YWxpY2U6d3Jvbmc=")) "alice" "wrong" "u1"
    (by decide) rfl
  ⟨hb.1, by rw [hb.2.2.1]; rfl, by rw [hb.2.2.2.1]; rfl, ha.1⟩

/-! ## Extraction failure -/

/-- Counterexample to C6: an earlier handler has written a response with status 200; the
Authorization value `Bearer a b` has three parts, the filter aborts with code 401, and
the response status stays 200, not 401. -/
theorem extraction_failure_status_counterexample :
    (strings.Split ((writtenContext (authorizationOnly "Bearer a b")).Request.Header.Get
        "Authorization") ' ').length ≠ 2 ∧
    (BearerHandler (svcBearer (.ok "u1"))
        (writtenContext (authorizationOnly "Bearer a b"))).aborted = true ∧
    (BearerHandler (svcBearer (.ok "u1"))
        (writtenContext (authorizationOnly "Bearer a b"))).status = 200 ∧
    (BearerHandler (svcBearer (.ok "u1"))
        (writtenContext (authorizationOnly "Bearer a b"))).status ≠ 401 := by
  decide

/-- C6 (amended): when the Authorization value `a` does not split into two parts, the
Bearer filter calls the abort with code 401, and the cause is the extraction error
`invalid bearer format [a]` carrying the raw value; the calls made are the challenge
header and the abort only (the verifier is not called, nothing is written to the
context), and the key-value store is as before.  The response status is 401 when the
response was not written before the filter ran, and is the earlier status otherwise. -/
theorem BearerHandler_extraction_failure {ι ε : Type} (parser : BearerParser ι ε)
    (c : Context ι ε)
    (hbad : (strings.Split (c.Request.Header.Get "Authorization") ' ').length ≠ 2) :
    (BearerHandler parser c).status = (if c.written then c.status else 401) ∧
    (BearerHandler parser c).written = true ∧
    (BearerHandler parser c).aborted = true ∧
    (BearerHandler parser c).Errors = c.Errors ++
      [Error.New ("invalid bearer format [" ++ c.Request.Header.Get "Authorization" ++ "]")] ∧
    issued c (BearerHandler parser c) =
      [Call.Header "WWW-Authenticate" ("Bearer realm=" ++ parser.Realm),
       Call.AbortWithError 401
        (Error.New ("invalid bearer format [" ++ c.Request.Header.Get "Authorization" ++ "]"))] ∧
    (issued c (BearerHandler parser c)).countP Call.isVerify = 0 ∧
    (issued c (BearerHandler parser c)).countP Call.isSet = 0 ∧
    (BearerHandler parser c).Keys = c.Keys := by
  have he : (getBearerToken c.Request.Header : Except (Error ε) String) = .error
      (Error.New ("invalid bearer format [" ++ c.Request.Header.Get "Authorization" ++ "]")) := by
    rw [getBearerToken_eq, if_pos hbad]
  rw [BearerHandler_extract_error parser c _ he, issued_rejected]
  simp [rejected, Call.isVerify, Call.isSet]

/-- Witness for C6 (amended): the Authorization value `Bearer a b` has three parts; on a
response not yet written the status becomes 401. -/
theorem BearerHandler_extraction_failure_witness :
    (strings.Split ((freshContext (authorizationOnly "Bearer a b")).Request.Header.Get
        "Authorization") ' ').length ≠ 2 ∧
    (BearerHandler (svcBearer (.ok "u1")) (freshContext (authorizationOnly "Bearer a b"))).status
      = 401 ∧
    (BearerHandler (svcBearer (.ok "u1")) (freshContext (authorizationOnly "Bearer a b"))).Errors
      = [] ++ [Error.New ("invalid bearer format ["
          ++ (freshContext (authorizationOnly "Bearer a b")).Request.Header.Get "Authorization"
          ++ "]")] :=
  have h := BearerHandler_extraction_failure (svcBearer (.ok "u1"))
      (freshContext (authorizationOnly "Bearer a b")) (by decide)
  ⟨by decide, h.1, h.2.2.2.1⟩

/-- Counterexample to C7: an earlier handler has written a response with status 200; the
request has no Authorization header, the Basic filter aborts with code 401, and the
response status stays 200, not 401. -/
theorem missing_header_status_counterexample :
    (writtenContext (fun _ => [])).Request.Header "Authorization" = [] ∧
    (BasicHandler (svcBasic (.ok "u1")) (writtenContext (fun _ => []))).aborted = true ∧
    (BasicHandler (svcBasic (.ok "u1")) (writtenContext (fun _ => []))).status = 200 ∧
    (BasicHandler (svcBasic (.ok "u1")) (writtenContext (fun _ => []))).status ≠ 401 := by
  decide

/-- C7 (amended): for a request without an Authorization header the Basic filter calls the
abort with code 401, sets the Basic challenge header, and the cause is the fixed error
`errMissingAuth` (`basic auth missing or wrong format`), the same value for every such
request; the calls made are the header write and the abort only, so the verifier is not
called and nothing is written under `BasicToken`.  The response status is 401 when the
response was not written before the filter ran, and is the earlier status otherwise. -/
theorem BasicHandler_missing_header {ι ε : Type} (parser : BasicParser ι ε)
    (c : Context ι ε) (habs : c.Request.Header "Authorization" = []) :
    (BasicHandler parser c).status = (if c.written then c.status else 401) ∧
    (BasicHandler parser c).written = true ∧
    (BasicHandler parser c).aborted = true ∧
    (BasicHandler parser c).header.Get "WWW-Authenticate" = "Basic realm=" ++ parser.Realm ∧
    (BasicHandler parser c).Errors = c.Errors ++ [errMissingAuth] ∧
    (errMissingAuth : Error ε) = Error.New "basic auth missing or wrong format" ∧
    issued c (BasicHandler parser c) =
      [Call.Header "WWW-Authenticate" ("Basic realm=" ++ parser.Realm),
       Call.AbortWithError 401 errMissingAuth] ∧
    (issued c (BasicHandler parser c)).countP Call.isVerify = 0 ∧
    (issued c (BasicHandler parser c)).countP Call.isSet = 0 ∧
    (BasicHandler parser c).Keys = c.Keys := by
  have he : c.Request.BasicAuth = none := by
    simp [http.Request.BasicAuth, http.Header.Get_of_absent c.Request.Header habs]
  rw [BasicHandler_extract_error parser c he, issued_rejected]
  simp [rejected, Call.isVerify, Call.isSet, http.Header.Get_Set, errMissingAuth]

/-- Witness for C7 (amended): a request with no header at all, realm `svc`, on a response
not yet written: status 401 and the fixed error. -/
theorem BasicHandler_missing_header_witness :
    (freshContext (fun _ => [])).Request.Header "Authorization" = [] ∧
    (BasicHandler (svcBasic (.ok "u1")) (freshContext (fun _ => []))).status = 401 ∧
    (BasicHandler (svcBasic (.ok "u1")) (freshContext (fun _ => []))).Errors
      = [] ++ [errMissingAuth] :=
  have h := BasicHandler_missing_header (svcBasic (.ok "u1")) (freshContext (fun _ => []))
      rfl
  ⟨rfl, h.1, h.2.2.2.2.1⟩

/-! ## Side effects of one invocation -/

/-- C8: one invocation of the Bearer filter (and of the Basic filter) makes at most one
response-header write, at most one context write, at most one abort and at most one call
of the verifier; exactly one of the abort and the context write happens; and the context
write happens only when the verifier returned success, with the value it returned. -/
theorem filter_effects_at_most_once {ι ε : Type} :
    (∀ (parser : BearerParser ι ε) (c : Context ι ε),
      (issued c (BearerHandler parser c)).countP Call.isHeader ≤ 1 ∧
      (issued c (BearerHandler parser c)).countP Call.isSet ≤ 1 ∧
      (issued c (BearerHandler parser c)).countP Call.isAbort ≤ 1 ∧
      (issued c (BearerHandler parser c)).countP Call.isVerify ≤ 1 ∧
      (issued c (BearerHandler parser c)).countP Call.isAbort
        + (issued c (BearerHandler parser c)).countP Call.isSet = 1 ∧
      ((issued c (BearerHandler parser c)).countP Call.isSet = 1 →
        ∃ tok v, (getBearerToken c.Request.Header : Except (Error ε) String) = .ok tok ∧
          parser.ParseAndVerify tok = .ok v ∧
          Call.Set BearerToken v ∈ issued c (BearerHandler parser c))) ∧
    (∀ (parser : BasicParser ι ε) (c : Context ι ε),
      (issued c (BasicHandler parser c)).countP Call.isHeader ≤ 1 ∧
      (issued c (BasicHandler parser c)).countP Call.isSet ≤ 1 ∧
      (issued c (BasicHandler parser c)).countP Call.isAbort ≤ 1 ∧
      (issued c (BasicHandler parser c)).countP Call.isVerify ≤ 1 ∧
      (issued c (BasicHandler parser c)).countP Call.isAbort
        + (issued c (BasicHandler parser c)).countP Call.isSet = 1 ∧
      ((issued c (BasicHandler parser c)).countP Call.isSet = 1 →
        ∃ user pass v, c.Request.BasicAuth = some (user, pass) ∧
          parser.ParseAndVerify user pass = .ok v ∧
          Call.Set BasicToken v ∈ issued c (BasicHandler parser c))) := by
  constructor
  · intro parser c
    cases he : (getBearerToken c.Request.Header : Except (Error ε) String) with
    | error err =>
      rw [BearerHandler_extract_error parser c err he, issued_rejected]
      simp [Call.isHeader, Call.isSet, Call.isAbort, Call.isVerify]
    | ok tok =>
      cases hv : parser.ParseAndVerify tok with
      | error err =>
        rw [BearerHandler_verify_error parser c tok err he hv, issued_invoke_rejected]
        simp [Call.isHeader, Call.isSet, Call.isAbort, Call.isVerify]
      | ok v =>
        rw [BearerHandler_verify_ok parser c tok v he hv, issued_invoke_Set]
        refine ⟨by simp [Call.isHeader], by simp [Call.isSet], by simp [Call.isAbort],
          by simp [Call.isVerify], by simp [Call.isAbort, Call.isSet],
          fun _ => ⟨tok, v, rfl, hv, by simp⟩⟩
  · intro parser c
    cases he : c.Request.BasicAuth with
    | none =>
      rw [BasicHandler_extract_error parser c he, issued_rejected]
      simp [Call.isHeader, Call.isSet, Call.isAbort, Call.isVerify]
    | some up =>
      obtain ⟨user, pass⟩ := up
      cases hv : parser.ParseAndVerify user pass with
      | error err =>
        rw [BasicHandler_verify_error parser c user pass err he hv, issued_invoke_rejected]
        simp [Call.isHeader, Call.isSet, Call.isAbort, Call.isVerify]
      | ok v =>
        rw [BasicHandler_verify_ok parser c user pass v he hv, issued_invoke_Set]
        refine ⟨by simp [Call.isHeader], by simp [Call.isSet], by simp [Call.isAbort],
          by simp [Call.isVerify], by simp [Call.isAbort, Call.isSet],
          fun _ => ⟨user, pass, v, rfl, hv, by simp⟩⟩

/-- Witness for C8: an accepted Bearer request makes no abort and one context write, a
rejected Basic request makes one abort and no context write. -/
theorem filter_effects_at_most_once_witness :
    ((issued (freshContext (authorizationOnly "Bearer abc123"))
        (BearerHandler (svcBearer (.ok "u1"))
          (freshContext (authorizationOnly "Bearer abc123")))).countP Call.isAbort
      + (issued (freshContext (authorizationOnly "Bearer abc123"))
        (BearerHandler (svcBearer (.ok "u1"))
          (freshContext (authorizationOnly "Bearer abc123")))).countP Call.isSet = 1) ∧
    ((issued (freshContext (authorizationOnly "Basic YWxpY2U6d3Jvbmc="))
        (BasicHandler (svcBasic (.error (Error.New "denied")))
          (freshContext (authorizationOnly "Basic YWxpY2U6d3Jvbmc=")))).countP Call.isAbort
      + (issued (freshContext (authorizationOnly "Basic YWxpY2U6d3Jvbmc="))
        (BasicHandler (svcBasic (.error (Error.New "denied")))
          (freshContext (authorizationOnly "Basic YWxpY2U6d3Jvbmc=")))).countP Call.isSet = 1) :=
  ⟨(filter_effects_at_most_once.1 (svcBearer (.ok "u1"))
      (freshContext (authorizationOnly "Bearer abc123"))).2.2.2.2.1,
   (filter_effects_at_most_once.2 (svcBasic (.error (Error.New "denied")))
      (freshContext (authorizationOnly "Basic YWxpY2U6d3Jvbmc="))).2.2.2.2.1⟩

/-- C9: running the Bearer filter leaves every context entry under a key other than
`BearerToken` unchanged (Basic filter: other than `BasicToken`); when the filter rejects
the request (extraction or verification fails) the whole key-value store is unchanged;
when it accepts the request (both succeed) the response status and the response headers
are unchanged. -/
theorem filter_frame {ι ε : Type} :
    (∀ (parser : BearerParser ι ε) (c : Context ι ε),
      (∀ k, k ≠ "BearerToken" → (BearerHandler parser c).Keys k = c.Keys k) ∧
      (((∃ err, (getBearerToken c.Request.Header : Except (Error ε) String) = .error err) ∨
        (∃ tok err, (getBearerToken c.Request.Header : Except (Error ε) String) = .ok tok ∧
          parser.ParseAndVerify tok = .error err)) →
        (BearerHandler parser c).Keys = c.Keys) ∧
      ((∃ tok v, (getBearerToken c.Request.Header : Except (Error ε) String) = .ok tok ∧
          parser.ParseAndVerify tok = .ok v) →
        (BearerHandler parser c).status = c.status ∧
        (BearerHandler parser c).header = c.header)) ∧
    (∀ (parser : BasicParser ι ε) (c : Context ι ε),
      (∀ k, k ≠ "BasicToken" → (BasicHandler parser c).Keys k = c.Keys k) ∧
      ((c.Request.BasicAuth = none ∨
        (∃ user pass err, c.Request.BasicAuth = some (user, pass) ∧
          parser.ParseAndVerify user pass = .error err)) →
        (BasicHandler parser c).Keys = c.Keys) ∧
      ((∃ user pass v, c.Request.BasicAuth = some (user, pass) ∧
          parser.ParseAndVerify user pass = .ok v) →
        (BasicHandler parser c).status = c.status ∧
        (BasicHandler parser c).header = c.header)) := by
  constructor
  · intro parser c
    cases he : (getBearerToken c.Request.Header : Except (Error ε) String) with
    | error err =>
      rw [BearerHandler_extract_error parser c err he]
      simp [rejected]
    | ok tok =>
      cases hv : parser.ParseAndVerify tok with
      | error err =>
        rw [BearerHandler_verify_error parser c tok err he hv]
        refine ⟨fun _ _ => rfl, fun _ => rfl, ?_⟩
        rintro ⟨tok2, v, h, hv2⟩
        cases h
        rw [hv] at hv2
        cases hv2
      | ok v =>
        rw [BearerHandler_verify_ok parser c tok v he hv]
        refine ⟨fun k hk => by simp [Context.Set, Context.invoke, BearerToken, hk], ?_,
          fun _ => ⟨rfl, rfl⟩⟩
        rintro (⟨err, h⟩ | ⟨tok2, err, h, hv2⟩)
        · cases h
        · cases h
          rw [hv] at hv2
          cases hv2
  · intro parser c
    cases he : c.Request.BasicAuth with
    | none =>
      rw [BasicHandler_extract_error parser c he]
      simp [rejected]
    | some up =>
      obtain ⟨user, pass⟩ := up
      cases hv : parser.ParseAndVerify user pass with
      | error err =>
        rw [BasicHandler_verify_error parser c user pass err he hv]
        refine ⟨fun _ _ => rfl, fun _ => rfl, ?_⟩
        rintro ⟨u2, p2, v, h, hv2⟩
        cases h
        rw [hv] at hv2
        cases hv2
      | ok v =>
        rw [BasicHandler_verify_ok parser c user pass v he hv]
        refine ⟨fun k hk => by simp [Context.Set, Context.invoke, BasicToken, hk], ?_,
          fun _ => ⟨rfl, rfl⟩⟩
        rintro (h | ⟨u2, p2, err, h, hv2⟩)
        · cases h
        · cases h
          rw [hv] at hv2
          cases hv2

/-- Witness for C9: an accepted Bearer request keeps an entry stored under another key,
the status 200 and the response headers. -/
theorem filter_frame_witness :
    (BearerHandler (svcBearer (.ok "u1"))
        ((freshContext (authorizationOnly "Bearer abc123")).Set "user" "x")).Keys "user"
      = some "x" ∧
    (BearerHandler (svcBearer (.ok "u1"))
        ((freshContext (authorizationOnly "Bearer abc123")).Set "user" "x")).status = 200 :=
  have h := filter_frame.1 (svcBearer (.ok "u1"))
    ((freshContext (authorizationOnly "Bearer abc123")).Set "user" "x")
  ⟨by rw [h.1 "user" (by decide)]; rfl,
   by rw [(h.2.2 ⟨"abc123", "u1", rfl, rfl⟩).1]; rfl⟩

end ginauth
